import Mathlib

/-!
Verification of the KernelSanders expiring stores.

Shallow embedding of the store components of the KernelSanders Telegram bot:

* `internal/app/response_store.go` — the `ResponseStore` (in-memory map of
  response records with write-through / read-through to an S3 bucket).
* the `ConversationCache` (`internal/conversation/conversation.go`, whose
  source is embedded in `README.md`).
* the `UsageCache` rate limiter (`internal/usage/usage.go`, embedded in
  `README.md`).
* `SummarizeToLength` from `internal/utils/utils.go`, in its two copies.

Conventions of the embedding:

* `time.Time` values are natural-number timestamps (the unit is irrelevant;
  constants are expressed in seconds).  Go's `t1.After t2` is `t1 > t2` and
  `time.Since t` at current time `now` is `now - t` (the recorded times the
  code compares are never in the future, so natural subtraction agrees with
  Go's signed duration wherever the comparison matters; where we subtract we
  move to `Int`).
* Go maps are association lists with overwrite-on-insert semantics
  (`lookupKV` / `insertKV` / `eraseKV`).
* The S3 bucket is an association list from object key to the parsed
  `responseEntry`; a missing key models `GetObject` returning an error, and
  `PutObject` failure is modelled by the `putOk : Bool` argument of
  `storeResponseForUser`.  All stored objects are well-formed JSON written by
  the store itself, so deserialization never fails; the bucket holds only
  objects under the `web_responses/` namespace, so the listing's `Prefix`
  filter is the identity.
* The background sweep goroutines are erased, and mutex operations are
  erased wherever they cannot change the sequential outcome of a single
  call.  The one place they can is `LoadResponsesFromS3`, which calls
  `DeleteResponse` while already holding the store's write lock and so
  blocks forever on its first already-expired object: its model returns an
  `Option`, with `none` standing for the call never returning.
* Go byte strings are Lean `String`s (for `SummarizeToLength`, `List Char`,
  standing for the byte sequence: both copies are modelled identically, so
  the comparison between them is unaffected).
-/

namespace KernelSanders

/-- Go map lookup, on a Go map modelled as an association list. -/
def lookupKV {α : Type} (m : List (String × α)) (k : String) : Option α :=
  match m with
  | [] => none
  | (k', v) :: rest => if k' = k then some v else lookupKV rest k

/-- Go map deletion (`delete(m, k)`): removes every binding of `k`. -/
def eraseKV {α : Type} (k : String) : List (String × α) → List (String × α)
  | [] => []
  | (k', v) :: rest => if k' = k then eraseKV k rest else (k', v) :: eraseKV k rest

/-- Go map insertion (`m[k] = v`): overwrites any previous binding. -/
def insertKV {α : Type} (k : String) (v : α) (m : List (String × α)) :
    List (String × α) :=
  (k, v) :: eraseKV k m

theorem lookupKV_eraseKV_self {α : Type} (k : String) (m : List (String × α)) :
    lookupKV (eraseKV k m) k = none := by
  induction m with
  | nil => rfl
  | cons p rest ih =>
    obtain ⟨k', v⟩ := p
    by_cases h : k' = k
    · simp [eraseKV, h, ih]
    · simp [eraseKV, lookupKV, h, ih]

theorem lookupKV_eraseKV_ne {α : Type} {k k' : String} (m : List (String × α))
    (h : k' ≠ k) : lookupKV (eraseKV k m) k' = lookupKV m k' := by
  induction m with
  | nil => rfl
  | cons p rest ih =>
    obtain ⟨k'', v⟩ := p
    by_cases hk : k'' = k
    · subst hk
      simp [eraseKV, lookupKV, Ne.symm h, ih]
    · simp [eraseKV, lookupKV, hk, ih]

theorem lookupKV_insertKV_self {α : Type} (k : String) (v : α)
    (m : List (String × α)) : lookupKV (insertKV k v m) k = some v := by
  simp [insertKV, lookupKV]

theorem lookupKV_insertKV_ne {α : Type} {k k' : String} (v : α)
    (m : List (String × α)) (h : k' ≠ k) :
    lookupKV (insertKV k v m) k' = lookupKV m k' := by
  simp [insertKV, lookupKV, Ne.symm h, lookupKV_eraseKV_ne m h]

theorem eraseKV_eraseKV {α : Type} (k : String) (m : List (String × α)) :
    eraseKV k (eraseKV k m) = eraseKV k m := by
  induction m with
  | nil => rfl
  | cons p rest ih =>
    obtain ⟨k', v⟩ := p
    by_cases h : k' = k
    · simp [eraseKV, h, ih]
    · simp [eraseKV, h, ih]

/-- Membership in an erased map keeps the key distinct from the erased one. -/
theorem mem_eraseKV {α : Type} {k : String} {p : String × α}
    {m : List (String × α)} (h : p ∈ eraseKV k m) : p ∈ m ∧ p.1 ≠ k := by
  induction m with
  | nil => cases h
  | cons q rest ih =>
    obtain ⟨k', v⟩ := q
    by_cases hk : k' = k
    · rw [eraseKV, if_pos hk] at h
      obtain ⟨h1, h2⟩ := ih h
      exact ⟨List.mem_cons_of_mem _ h1, h2⟩
    · rw [eraseKV, if_neg hk] at h
      rcases List.mem_cons.mp h with h | h
      · subst h; exact ⟨List.mem_cons_self _ _, hk⟩
      · obtain ⟨h1, h2⟩ := ih h
        exact ⟨List.mem_cons_of_mem _ h1, h2⟩

/-- `types.FileRetentionTime = 4 * time.Hour`, in seconds. -/
def fileRetentionTime : Nat := 4 * 60 * 60

/-- `responseEntry` from `internal/app/response_store.go`: a response's
content, creation time, expiration time, and owning user. -/
structure responseEntry where
  content : String
  createdAt : Nat
  expiresAt : Nat
  ownerUserID : Int
deriving DecidableEq

/-- The `ResponseStore` state: the in-memory `responses` map together with the
modelled contents of the S3 bucket (object key to parsed record). -/
structure ResponseStore where
  responses : List (String × responseEntry)
  s3objects : List (String × responseEntry)
deriving DecidableEq

/-- The S3 object key used throughout `response_store.go`:
`fmt.Sprintf("web_responses/%s.json", id)`. -/
def objectKey (id : String) : String := "web_responses/" ++ id ++ ".json"

/-- Go `strings.TrimSuffix(s, suf)`: drops `suf` from the end of `s` when it
is a suffix, otherwise returns `s` unchanged. -/
def trimSuffix (s suf : String) : String :=
  if suf.data.isSuffixOf s.data then
    String.mk (s.data.take (s.data.length - suf.data.length))
  else s

/-- Go `strings.Split` for a one-character separator, on the character list:
`splitChar c l` cuts `l` at every occurrence of `c`. -/
def splitChar (c : Char) : List Char → List (List Char)
  | [] => [[]]
  | x :: xs =>
    match splitChar c xs with
    | [] => [[]]
    | h :: t => if x = c then [] :: h :: t else (x :: h) :: t

/-- `getResponseIDFromKey` from `response_store.go`: splits the key on `/`,
requires exactly two components, and trims the `.json` extension. -/
def getResponseIDFromKey (key : String) : String :=
  match splitChar (Char.ofNat 47) key.data with
  | [_, idWithExt] => trimSuffix (String.mk idWithExt) ".json"
  | _ => ""

/-- `StoreResponseForUser`: inserts a fresh record (expiring after
`FileRetentionTime`) into the in-memory map, then uploads it to S3.  The
fresh UUID is the `freshId` argument; `putOk` is whether `PutObject`
succeeds.  On upload failure the function logs and returns the empty string;
the in-memory entry is not rolled back.  (JSON marshalling of
`responseEntry` cannot fail, so that early return is not modelled.) -/
def storeResponseForUser (rs : ResponseStore) (content : String) (userID : Int)
    (freshId : String) (now : Nat) (putOk : Bool) : String × ResponseStore :=
  let entry : responseEntry :=
    { content := content, createdAt := now, expiresAt := now + fileRetentionTime,
      ownerUserID := userID }
  let rs1 := { rs with responses := insertKV freshId entry rs.responses }
  if putOk then
    (freshId, { rs1 with s3objects := insertKV (objectKey freshId) entry rs1.s3objects })
  else
    ("", rs1)

/-- `DeleteResponse`: removes the id from memory and deletes the S3 object.
The Go function returns nothing; S3 errors are only logged. -/
def deleteResponse (rs : ResponseStore) (id : String) : ResponseStore :=
  { responses := eraseKV id rs.responses,
    s3objects := eraseKV (objectKey id) rs.s3objects }

/-- `GetResponse`: memory first (found iff not expired — `time.Now().After`
is a strict comparison); on miss, reads the object from S3, and if expired
deletes it via `DeleteResponse`, otherwise repopulates memory. -/
def getResponse (rs : ResponseStore) (id : String) (now : Nat) :
    (String × Bool) × ResponseStore :=
  match lookupKV rs.responses id with
  | some entry =>
    if now > entry.expiresAt then (("", false), rs)
    else ((entry.content, true), rs)
  | none =>
    match lookupKV rs.s3objects (objectKey id) with
    | none => (("", false), rs)
    | some s3Entry =>
      if now > s3Entry.expiresAt then (("", false), deleteResponse rs id)
      else ((s3Entry.content, true),
            { rs with responses := insertKV id s3Entry rs.responses })

/-- `GetCreationTime`: memory first, S3 on miss, repopulating memory.  The Go
code performs no expiration check in either path and never consults the
clock. -/
def getCreationTime (rs : ResponseStore) (id : String) :
    (Nat × Bool) × ResponseStore :=
  match lookupKV rs.responses id with
  | some entry => ((entry.createdAt, true), rs)
  | none =>
    match lookupKV rs.s3objects (objectKey id) with
    | none => ((0, false), rs)
    | some s3Entry =>
      ((s3Entry.createdAt, true),
       { rs with responses := insertKV id s3Entry rs.responses })

/-- `GetExpirationTime`: same shape as `getCreationTime`, returning the
expiration timestamp; again no expiration check. -/
def getExpirationTime (rs : ResponseStore) (id : String) :
    (Nat × Bool) × ResponseStore :=
  match lookupKV rs.responses id with
  | some entry => ((entry.expiresAt, true), rs)
  | none =>
    match lookupKV rs.s3objects (objectKey id) with
    | none => ((0, false), rs)
    | some s3Entry =>
      ((s3Entry.expiresAt, true),
       { rs with responses := insertKV id s3Entry rs.responses })

/-- One iteration of the `LoadResponsesFromS3` listing loop.  A live object
is inserted into memory under the id extracted from its key.  For an
already expired object the source calls `rs.DeleteResponse`
(response_store.go:127) while `LoadResponsesFromS3` still holds the store's
write lock taken at line 90 (deferred unlock); `DeleteResponse` re-acquires
the same non-reentrant `sync.RWMutex` at line 325, so that call blocks
forever.  The expired branch is therefore `none`: the load never completes,
and in particular the backend object is never deleted. -/
def loadStep (now : Nat) (rs : ResponseStore) (kv : String × responseEntry) :
    Option ResponseStore :=
  if now > kv.2.expiresAt then none
  else some { rs with responses := insertKV (getResponseIDFromKey kv.1) kv.2 rs.responses }

/-- `LoadResponsesFromS3`: folds the listing of the bucket (snapshot of the
objects at call time) through `loadStep`.  A `none` result models the call
never returning — it self-deadlocks on the first already-expired object it
lists. -/
def loadResponsesFromS3 (rs : ResponseStore) (now : Nat) :
    Option ResponseStore :=
  rs.s3objects.foldlM (loadStep now) rs

/-- `conversationEntry` from the `ConversationCache` (README-embedded
`internal/conversation/conversation.go`): serialized history plus the
last-seen timestamp. -/
structure conversationEntry where
  data : String
  lastSeen : Nat
deriving DecidableEq

/-- The `ConversationCache` expiry: 30 minutes of inactivity, in seconds. -/
def convExpiry : Nat := 30 * 60

/-- `ConversationCache.Set`: overwrites the entry for the key with the value
and the current timestamp. -/
def convSet (cc : List (String × conversationEntry)) (key value : String)
    (now : Nat) : List (String × conversationEntry) :=
  insertKV key { data := value, lastSeen := now } cc

/-- `ConversationCache.Get`: found iff the key is present and
`time.Since(entry.lastSeen) > expiry` fails (a strict comparison). -/
def convGet (cc : List (String × conversationEntry)) (key : String)
    (now : Nat) : String × Bool :=
  match lookupKV cc key with
  | none => ("", false)
  | some entry =>
    if now - entry.lastSeen > convExpiry then ("", false) else (entry.data, true)

/-- `UsageCache` message ceiling: 10 messages per window. -/
def usageLimit : Nat := 10

/-- `UsageCache` window: 10 minutes, in seconds. -/
def usageDuration : Nat := 10 * 60

/-- `UsageCache.filterRecentMessages` on one user's timestamp list: keeps the
timestamps with `time.Since(t) <= duration`. -/
def filterRecentMessages (times : List Nat) (now : Nat) : List Nat :=
  times.filter (fun t => decide (now - t ≤ usageDuration))

/-- `UsageCache.CanUserChat` on one user's timestamp list: filters, writes
the filtered list back (first component), and allows iff the remaining count
is strictly below the limit. -/
def canUserChat (times : List Nat) (now : Nat) : List Nat × Bool :=
  let validTimes := filterRecentMessages times now
  (validTimes, decide (validTimes.length < usageLimit))

/-- `UsageCache.TimeUntilLimitReset` on one user's timestamp list: `0` when
under the limit, else `duration - time.Since(validTimes[0])` (a signed
duration).  `headD` stands for the Go index `[0]`; the indexed branch is only
reached with at least `usageLimit > 0` elements, so the default is never
used. -/
def timeUntilLimitReset (times : List Nat) (now : Nat) : Int :=
  let validTimes := filterRecentMessages times now
  if validTimes.length < usageLimit then 0
  else (usageDuration : Int) - ((now : Int) - (validTimes.headD 0 : Int))

/-- `UsageCache.AddUsage` on one user's timestamp list: appends `now`. -/
def addUsage (times : List Nat) (now : Nat) : List Nat :=
  times ++ [now]

/-- `SummarizeToLength` from `src/internal/utils/utils.go`: truncates to
`maxLength` bytes (modelled as characters) with no ellipsis. -/
def SummarizeToLength (text : List Char) (maxLength : Nat) : List Char :=
  if text.length ≤ maxLength then text else text.take maxLength

/-- `SummarizeToLength` from `src/unnamed/part_002` (the other copy of
`internal/utils/utils.go`): truncates and appends `...`. -/
def SummarizeToLengthEllipsis (text : List Char) (maxLength : Nat) : List Char :=
  if text.length ≤ maxLength then text
  else text.take maxLength ++ ['.', '.', '.']

/-- After `StoreResponseForUser`, whatever the outcome of the S3 upload, the
in-memory map binds the fresh id to the new record. -/
theorem storeResponseForUser_responses_lookup (rs : ResponseStore)
    (content : String) (userID : Int) (freshId : String) (now : Nat)
    (putOk : Bool) :
    lookupKV ((storeResponseForUser rs content userID freshId now putOk).2).responses
        freshId
      = some ⟨content, now, now + fileRetentionTime, userID⟩ := by
  cases putOk <;> simp [storeResponseForUser, lookupKV_insertKV_self]

/-- Claim C1 counterexample: at the exact expiry boundary `t = t0 + T` both
stores still report the entry as found, where the claim requires not-found.
A response stored at time `0` is found by `getResponse` at time
`fileRetentionTime`, and a conversation set at time `0` is found by `Get` at
time `convExpiry`. -/
theorem claim1_counterexample :
    ((getResponse (storeResponseForUser ⟨[], []⟩ "hello" 1 "id0" 0 true).2 "id0"
        (0 + fileRetentionTime)).1).2 = true
    ∧ (convGet (convSet [] "k" "v" 0) "k" (0 + convExpiry)).2 = true := by
  decide

/-- Claim C1 (amended): for an entry stored with ttl `T` at time `t0`, a get
at time `t` returns found for all `t ≤ t0 + T` and not-found for all
`t > t0 + T` — the boundary instant `t = t0 + T` still reports the entry
present, because both expiry checks are strict (`time.Now().After` and
`time.Since > expiry`). -/
theorem claim1_expiry_monotonicity (rs : ResponseStore) (content : String)
    (userID : Int) (freshId : String) (t0 : Nat) (putOk : Bool) (t : Nat)
    (cc : List (String × conversationEntry)) (key value : String) :
    (((getResponse (storeResponseForUser rs content userID freshId t0 putOk).2
        freshId t).1).2 = true ↔ t ≤ t0 + fileRetentionTime)
    ∧ ((convGet (convSet cc key value t0) key t).2 = true
        ↔ t ≤ t0 + convExpiry) := by
  constructor
  · rw [getResponse.eq_def]
    rw [storeResponseForUser_responses_lookup]
    by_cases h : t > t0 + fileRetentionTime <;> simp [h] <;> omega
  · rw [convGet.eq_def, convSet, lookupKV_insertKV_self]
    by_cases h : t - t0 > convExpiry <;> simp [h] <;> omega

/-- Claim C2: fetching the id returned by a successful publish immediately
after the publish returns the stored content with found equal to true. -/
theorem claim2_publish_fetch_roundtrip (rs : ResponseStore) (content : String)
    (userID : Int) (freshId : String) (t0 : Nat) (h : content ≠ "") :
    ((getResponse (storeResponseForUser rs content userID freshId t0 true).2
        (storeResponseForUser rs content userID freshId t0 true).1 t0).1)
      = (content, true) := by
  have h1 : (storeResponseForUser rs content userID freshId t0 true).1 = freshId := by
    simp [storeResponseForUser]
  have h2 : ¬ t0 > t0 + fileRetentionTime := by omega
  rw [h1, getResponse.eq_def, storeResponseForUser_responses_lookup]
  simp [h2]

/-- Claim C2 witness: the round trip evaluated at a concrete store, content
and owner. -/
theorem claim2_publish_fetch_roundtrip_witness :
    "hello" ≠ ""
    ∧ ((getResponse (storeResponseForUser ⟨[], []⟩ "hello" 1 "id0" 0 true).2
        (storeResponseForUser ⟨[], []⟩ "hello" 1 "id0" 0 true).1 0).1)
      = ("hello", true) :=
  ⟨by decide, claim2_publish_fetch_roundtrip ⟨[], []⟩ "hello" 1 "id0" 0 (by decide)⟩

/-- Claim C6 counterexample: when the S3 `PutObject` call fails, the
in-memory entry survives, but the function returns the empty string rather
than the generated identifier `"id0"`. -/
theorem claim6_counterexample :
    (storeResponseForUser ⟨[], []⟩ "hello" 1 "id0" 0 false).1 ≠ "id0"
    ∧ lookupKV ((storeResponseForUser ⟨[], []⟩ "hello" 1 "id0" 0 false).2).responses
        "id0" = some ⟨"hello", 0, fileRetentionTime, 1⟩ := by
  decide

/-- Claim C6 (amended): the in-memory mutation of `StoreResponseForUser` is
never rolled back — the entry is present under the fresh id whether or not
the backend write succeeds — but the returned value is the generated id only
when the S3 write succeeds, and the empty string when it fails. -/
theorem claim6_store_no_rollback (rs : ResponseStore) (content : String)
    (userID : Int) (freshId : String) (now : Nat) (putOk : Bool) :
    lookupKV ((storeResponseForUser rs content userID freshId now putOk).2).responses
        freshId
      = some ⟨content, now, now + fileRetentionTime, userID⟩
    ∧ (storeResponseForUser rs content userID freshId now putOk).1
      = (if putOk then freshId else "") := by
  refine ⟨storeResponseForUser_responses_lookup rs content userID freshId now putOk, ?_⟩
  cases putOk <;> simp [storeResponseForUser]

/-- Claim C8: `DeleteResponse` is total (it returns normally on absent keys,
with S3 errors only logged) and idempotent: after each of two consecutive
deletions the id is absent from the in-memory map, and the second deletion
changes nothing. -/
theorem claim8_idempotent_deletion (rs : ResponseStore) (id : String) :
    lookupKV (deleteResponse rs id).responses id = none
    ∧ lookupKV (deleteResponse (deleteResponse rs id) id).responses id = none
    ∧ deleteResponse (deleteResponse rs id) id = deleteResponse rs id := by
  refine ⟨lookupKV_eraseKV_self id _, lookupKV_eraseKV_self id _, ?_⟩
  simp [deleteResponse, eraseKV_eraseKV]

/-- Claim C5 counterexample: for an entry sitting in memory whose expiration
time (10) is past (current time 100), a fetch fails, yet both
`GetCreationTime` and `GetExpirationTime` still report found equal to true —
they perform no expiry check at all. -/
theorem claim5_counterexample :
    ((getResponse ⟨[("a", ⟨"hi", 0, 10, 1⟩)], []⟩ "a" 100).1).2 = false
    ∧ ((getCreationTime ⟨[("a", ⟨"hi", 0, 10, 1⟩)], []⟩ "a").1).2 = true
    ∧ ((getExpirationTime ⟨[("a", ⟨"hi", 0, 10, 1⟩)], []⟩ "a").1).2 = true := by
  decide

/-- Claim C5 (amended): `GetCreationTime` and `GetExpirationTime` share the
memory-then-backend read-through shape of `GetResponse`, but perform no
expiry check and never delete: each returns found equal to true exactly when
the id resolves in memory or in the backend, even for entries that are
already expired. -/
theorem claim5_no_expiry_check (rs : ResponseStore) (id : String) :
    (((getCreationTime rs id).1).2 = true ↔
      (lookupKV rs.responses id).isSome = true
      ∨ (lookupKV rs.s3objects (objectKey id)).isSome = true)
    ∧ (((getExpirationTime rs id).1).2 = true ↔
      (lookupKV rs.responses id).isSome = true
      ∨ (lookupKV rs.s3objects (objectKey id)).isSome = true) := by
  cases h1 : lookupKV rs.responses id <;>
    cases h2 : lookupKV rs.s3objects (objectKey id) <;>
      simp [getCreationTime, getExpirationTime, h1, h2]

/-- Claim C10 counterexample: on the two-character text `"ab"` with maximum
length 1, the copy in `internal/utils/utils.go` yields `"a"` while the copy
in `src/unnamed/part_002` yields `"a..."`. -/
theorem claim10_counterexample :
    SummarizeToLength ['a', 'b'] 1 ≠ SummarizeToLengthEllipsis ['a', 'b'] 1 := by
  decide

/-- Claim C10 (amended): the two copies of `SummarizeToLength` agree exactly
on texts that fit in `maxLength`; on longer texts they differ, the
`part_002` copy appending an ellipsis to the common truncation. -/
theorem claim10_copies_agree_iff (text : List Char) (maxLength : Nat) :
    (SummarizeToLength text maxLength = SummarizeToLengthEllipsis text maxLength
      ↔ text.length ≤ maxLength)
    ∧ (maxLength < text.length →
      SummarizeToLengthEllipsis text maxLength
        = SummarizeToLength text maxLength ++ ['.', '.', '.']) := by
  constructor
  · constructor
    · intro h
      by_contra hlt
      rw [SummarizeToLength, SummarizeToLengthEllipsis, if_neg hlt, if_neg hlt] at h
      have hlen := congrArg List.length h
      simp [List.length_append] at hlen
    · intro h
      simp [SummarizeToLength, SummarizeToLengthEllipsis, h]
  · intro h
    have hn : ¬ text.length ≤ maxLength := by omega
    simp [SummarizeToLength, SummarizeToLengthEllipsis, hn]

/-- Records of a Go map modelled as an association list never carry the key
just erased, so none of them is counted by a key test for it. -/
theorem countP_eraseKV (α : Type) (k : String) (m : List (String × α)) :
    (eraseKV k m).countP (fun p => decide (p.1 = k)) = 0 := by
  induction m with
  | nil => rfl
  | cons p rest ih =>
    obtain ⟨k', v⟩ := p
    by_cases h : k' = k
    · simp [eraseKV, h, ih]
    · simp [eraseKV, h, ih, List.countP_cons]

/-- Sequential `Set` calls on the `ConversationCache` with one key, as a
fold; each element of `vs` is the value and the time of one call. -/
def convSetMany (cc : List (String × conversationEntry)) (key : String)
    (vs : List (String × Nat)) : List (String × conversationEntry) :=
  vs.foldl (fun c vt => convSet c key vt.1 vt.2) cc

/-- Claim C7: every single `Set` rebinds the key to the value and time of
that call (resetting the inactivity timer), and after any nonempty sequence
of sequential `Set` calls for one key exactly one record exists for the key,
holding the last value and time set. -/
theorem claim7_at_most_one_conversation (cc : List (String × conversationEntry))
    (key : String) (vs : List (String × Nat)) (h : vs ≠ []) :
    (∀ c : List (String × conversationEntry), ∀ value : String, ∀ t : Nat,
      lookupKV (convSet c key value t) key = some ⟨value, t⟩)
    ∧ (convSetMany cc key vs).countP (fun p => decide (p.1 = key)) = 1
    ∧ lookupKV (convSetMany cc key vs) key
      = some ⟨(vs.getLast h).1, (vs.getLast h).2⟩ := by
  refine ⟨fun c value t => lookupKV_insertKV_self key _ c, ?_⟩
  induction vs generalizing cc with
  | nil => cases h rfl
  | cons v rest ih =>
    cases rest with
    | nil =>
      refine ⟨?_, ?_⟩
      · simp [convSetMany, convSet, insertKV, List.countP_cons, countP_eraseKV]
      · simp [convSetMany, List.getLast, convSet, lookupKV_insertKV_self]
    | cons w rest' =>
      have hne : w :: rest' ≠ [] := List.cons_ne_nil w rest'
      have hstep : convSetMany cc key (v :: w :: rest')
          = convSetMany (convSet cc key v.1 v.2) key (w :: rest') := by
        simp [convSetMany]
      obtain ⟨hc, hl⟩ := ih (convSet cc key v.1 v.2) hne
      refine ⟨by rw [hstep]; exact hc, ?_⟩
      rw [hstep, hl]
      simp only [List.getLast_cons hne]

/-- Claim C7 witness: two sequential sets on an initially empty cache leave
exactly the one record of the second call. -/
theorem claim7_witness :
    ([("a", 1), ("b", 2)] : List (String × Nat)) ≠ []
    ∧ ((∀ c : List (String × conversationEntry), ∀ value : String, ∀ t : Nat,
        lookupKV (convSet c "k" value t) "k" = some ⟨value, t⟩)
      ∧ (convSetMany [] "k" [("a", 1), ("b", 2)]).countP
          (fun p => decide (p.1 = "k")) = 1
      ∧ lookupKV (convSetMany [] "k" [("a", 1), ("b", 2)]) "k"
        = some ⟨(([("a", 1), ("b", 2)] : List (String × Nat)).getLast
            (by decide)).1,
          (([("a", 1), ("b", 2)] : List (String × Nat)).getLast (by decide)).2⟩) :=
  ⟨by decide, claim7_at_most_one_conversation [] "k" [("a", 1), ("b", 2)] (by decide)⟩

/-- Claim C4: `CanUserChat` answers true exactly when the number of recorded
timestamps within the 10-minute window (after pruning the older ones) is
strictly below the ceiling 10, and `TimeUntilLimitReset` returns 0 under the
limit and otherwise the window minus the age of the oldest in-window
timestamp.  The sortedness hypothesis is the invariant maintained by
`AddUsage`, which only ever appends the current time. -/
theorem claim4_rate_limiter (times : List Nat) (now : Nat)
    (hsorted : times.Sorted (· ≤ ·)) :
    ((canUserChat times now).2 = true ↔
      times.countP (fun t => decide (now - t ≤ usageDuration)) < 10)
    ∧ ((filterRecentMessages times now).length < 10 →
        timeUntilLimitReset times now = 0)
    ∧ (¬ (filterRecentMessages times now).length < 10 →
        ∀ oldest : Nat, oldest ∈ filterRecentMessages times now →
          (∀ x ∈ filterRecentMessages times now, oldest ≤ x) →
          timeUntilLimitReset times now
            = (usageDuration : Int) - ((now : Int) - (oldest : Int))) := by
  refine ⟨?_, ?_, ?_⟩
  · simp [canUserChat, filterRecentMessages, usageLimit, List.countP_eq_length_filter]
  · intro h
    simp [timeUntilLimitReset, usageLimit, h]
  · intro h oldest hmem hmin
    rcases hvt : filterRecentMessages times now with _ | ⟨o, rest⟩
    · rw [hvt] at h
      simp at h
    · have hsortedv : (filterRecentMessages times now).Sorted (· ≤ ·) :=
        List.Sorted.filter _ hsorted
      rw [hvt] at hsortedv hmem hmin h
      have h1 : oldest ≤ o := hmin o (List.mem_cons_self o rest)
      have h2 : o ≤ oldest := by
        rcases List.mem_cons.mp hmem with rfl | hm
        · exact Nat.le_refl _
        · exact (List.sorted_cons.mp hsortedv).1 oldest hm
      have heq : oldest = o := Nat.le_antisymm h1 h2
      simp only [timeUntilLimitReset, usageLimit]
      rw [hvt, if_neg h, heq]
      rfl

/-- Claim C4 witness: ten timestamps `0..9` at current time `9`, all inside
the window, so the user is exactly at the ceiling. -/
theorem claim4_rate_limiter_witness :
    ([0, 1, 2, 3, 4, 5, 6, 7, 8, 9] : List Nat).Sorted (· ≤ ·)
    ∧ (((canUserChat [0, 1, 2, 3, 4, 5, 6, 7, 8, 9] 9).2 = true ↔
        ([0, 1, 2, 3, 4, 5, 6, 7, 8, 9] : List Nat).countP
          (fun t => decide (9 - t ≤ usageDuration)) < 10)
      ∧ ((filterRecentMessages [0, 1, 2, 3, 4, 5, 6, 7, 8, 9] 9).length < 10 →
          timeUntilLimitReset [0, 1, 2, 3, 4, 5, 6, 7, 8, 9] 9 = 0)
      ∧ (¬ (filterRecentMessages [0, 1, 2, 3, 4, 5, 6, 7, 8, 9] 9).length < 10 →
          ∀ oldest : Nat,
            oldest ∈ filterRecentMessages [0, 1, 2, 3, 4, 5, 6, 7, 8, 9] 9 →
            (∀ x ∈ filterRecentMessages [0, 1, 2, 3, 4, 5, 6, 7, 8, 9] 9,
              oldest ≤ x) →
            timeUntilLimitReset [0, 1, 2, 3, 4, 5, 6, 7, 8, 9] 9
              = (usageDuration : Int) - ((9 : Int) - (oldest : Int)))) :=
  ⟨by decide, claim4_rate_limiter [0, 1, 2, 3, 4, 5, 6, 7, 8, 9] 9 (by decide)⟩

/-- Claim C9: when the user is over the limit, `TimeUntilLimitReset` returns
a duration between 0 and the 10-minute window; under the limit it returns
exactly 0.  The hypothesis that every recorded timestamp is at most `now`
holds in every run because `AddUsage` records the current time. -/
theorem claim9_reset_within_window (times : List Nat) (now : Nat)
    (hpast : ∀ t ∈ times, t ≤ now) :
    (¬ (filterRecentMessages times now).length < usageLimit →
      0 ≤ timeUntilLimitReset times now
      ∧ timeUntilLimitReset times now ≤ (usageDuration : Int))
    ∧ ((filterRecentMessages times now).length < usageLimit →
      timeUntilLimitReset times now = 0) := by
  constructor
  · intro h
    rcases hvt : filterRecentMessages times now with _ | ⟨o, rest⟩
    · rw [hvt] at h
      simp [usageLimit] at h
    · have ho : o ∈ filterRecentMessages times now := by
        rw [hvt]
        exact List.mem_cons_self o rest
      rw [filterRecentMessages] at ho
      have homem := List.mem_filter.mp ho
      have h1 : now - o ≤ usageDuration := by simpa using homem.2
      have h2 : o ≤ now := hpast o homem.1
      have hne : ¬ (o :: rest).length < usageLimit := by rw [hvt] at h; exact h
      simp only [timeUntilLimitReset]
      rw [hvt, if_neg hne]
      simp only [List.headD_cons]
      rw [usageDuration] at h1 ⊢
      constructor <;> omega
  · intro h
    simp [timeUntilLimitReset, h]

/-- Claim C9 witness: ten usages at time 0 queried at time 0 — the user is
over the limit and the reset time is the whole window. -/
theorem claim9_reset_within_window_witness :
    (∀ t ∈ List.replicate 10 (0 : Nat), t ≤ 0)
    ∧ ((¬ (filterRecentMessages (List.replicate 10 0) 0).length < usageLimit →
        0 ≤ timeUntilLimitReset (List.replicate 10 0) 0
        ∧ timeUntilLimitReset (List.replicate 10 0) 0 ≤ (usageDuration : Int))
      ∧ ((filterRecentMessages (List.replicate 10 0) 0).length < usageLimit →
        timeUntilLimitReset (List.replicate 10 0) 0 = 0)) :=
  ⟨by decide, claim9_reset_within_window (List.replicate 10 0) 0 (by decide)⟩

/-- Claim C3, evaluated at the failing input.  A bucket holding one record
already expired at load time (expiry 10, load at time 100): the load
self-deadlocks (`none` — `DeleteResponse` blocks on the write lock that
`LoadResponsesFromS3` already holds), so contrary to the claim the expired
record is neither discarded from memory nor deleted from the backend, and no
fetch can ever follow the load.  On the same bucket loaded before the expiry
(time 5) the deadlocking branch is not reached and the claimed round trip
does hold: the load completes and the fetch returns the published content. -/
theorem claim3_load_deadlock_on_expired :
    loadResponsesFromS3 ⟨[], [(objectKey "id0", ⟨"hi", 0, 10, 1⟩)]⟩ 100 = none
    ∧ (loadResponsesFromS3 ⟨[], [(objectKey "id0", ⟨"hi", 0, 10, 1⟩)]⟩ 5).map
        (fun rs => (getResponse rs "id0" 5).1) = some ("hi", true) := by
  decide

end KernelSanders
